import Mathlib

/-!
Verification model of the source-import pipeline of the `localtv` Django
application (files `localtv/models/sources.py`, `localtv/models/videos.py`,
`localtv/models/base.py`, `localtv/tasks.py`).

Database rows are modelled as Lean structures, querysets as lists, and each
task / model method as a pure function from the relevant slice of database
state to the new state.  Celery retry control flow is modelled with explicit
outcome values.
-/

namespace Localtv

/-- Video/Feed status constants from `StatusedThumbnailable`
(`localtv/models/base.py` lines 201-206): UNAPPROVED = 0, ACTIVE = 1,
REJECTED = 2, PENDING_THUMBNAIL = 3. -/
inductive VideoStatus
  | unapproved
  | active
  | rejected
  | pendingThumbnail
  deriving DecidableEq, Repr

/-- Import-job status constants.  STARTED, COMPLETE and FAILED are declared on
`SourceImport` (`localtv/models/sources.py` lines 366-368).  `pending` is
Modelled from the spec: `localtv/tasks.py` references `import_class.PENDING`
(lines 196, 224, 261) but no `PENDING` constant is declared on `SourceImport`
under `src/`; the spec's Import Job status set is
{STARTED, PENDING, COMPLETE, FAILED}, so PENDING is modelled as a distinct
fourth status value. -/
inductive ImportStatus
  | started
  | pending
  | complete
  | failed
  deriving DecidableEq, Repr

/-- Modelled from the spec: `localtv/tasks.py` line 170 filters on
`Video.PENDING`, a constant not declared on `Video` (or any of its bases)
under `src/`.  Per the spec (sections 4.1 and 4.2) the bulk-approval step
resolves the videos that an import created with their initial, not yet
resolved status, and that initial status is UNAPPROVED (`Source.update`
dispatches items with `status=Video.UNAPPROVED`, `sources.py` line 87), so
the missing constant is modelled as the UNAPPROVED status value. -/
def videoPENDING : VideoStatus := VideoStatus.unapproved

/-! ## Import-job rows and the exclusivity check
(`Feed.update` lines 158-168, `SavedSearch.update` lines 267-279) -/

/-- One `FeedImport` / `SearchImport` row: the fields relevant to the
exclusivity check (`source`, `status`) plus the `auto_approve` snapshot taken
at creation time. -/
structure ImportJob where
  pk : Nat
  sourcePk : Nat
  status : ImportStatus
  autoApprove : Bool
  deriving DecidableEq, Repr

/-- The rows matched by `FeedImport.objects.get(source=self, status=STARTED)`
(`sources.py` lines 159-160) / the `SearchImport` equivalent (lines 268-269). -/
def startedJobsFor (jobs : List ImportJob) (sourcePk : Nat) : List ImportJob :=
  jobs.filter (fun j => j.sourcePk == sourcePk &&
    decide (j.status = ImportStatus.started))

/-- Jobs in a non-terminal state (STARTED or PENDING) for a source:
the quantity the exclusivity invariant of the spec is about. -/
def nonTerminalJobsFor (jobs : List ImportJob) (sourcePk : Nat) : List ImportJob :=
  jobs.filter (fun j => j.sourcePk == sourcePk &&
    (decide (j.status = ImportStatus.started) ||
     decide (j.status = ImportStatus.pending)))

/-- The check-then-create prefix of `Feed.update` (`sources.py` lines
158-168): if a STARTED `FeedImport` for this feed exists the update returns
without any change (a `MultipleObjectsReturned` from `get` would also escape
without creating a row); otherwise a fresh STARTED `FeedImport` is created
with a snapshot of the feed's `auto_approve`. -/
def Feed.updateStart (jobs : List ImportJob) (feedPk : Nat) (autoApprove : Bool)
    (newPk : Nat) : List ImportJob :=
  if (startedJobsFor jobs feedPk).isEmpty then
    jobs ++ [{ pk := newPk, sourcePk := feedPk, status := ImportStatus.started,
               autoApprove := autoApprove }]
  else
    jobs

/-- The check-then-create prefix of `SavedSearch.update` (`sources.py` lines
267-279), structurally identical to `Feed.updateStart` but over
`SearchImport` rows. -/
def SavedSearch.updateStart (jobs : List ImportJob) (searchPk : Nat)
    (autoApprove : Bool) (newPk : Nat) : List ImportJob :=
  if (startedJobsFor jobs searchPk).isEmpty then
    jobs ++ [{ pk := newPk, sourcePk := searchPk, status := ImportStatus.started,
               autoApprove := autoApprove }]
  else
    jobs

/-! ## The counter / first-stage state machine
(`Source.update` in `sources.py` lines 57-101, `SourceImport.handle_video`
lines 443-460, `SourceImport.handle_error` lines 403-434, and
`mark_import_pending` in `tasks.py` lines 127-209).

The state tracks a single import job's durable fields together with the two
row counts `mark_import_pending` recomputes from the database
(`source_import.indexes.count()` and
`source_import.errors.filter(is_skip=True).count()`) and the number of
dispatched, not yet processed items sitting on the work queue. -/

structure ImportState where
  status : ImportStatus
  totalVideos : Option Nat
  videosImported : Nat
  videosSkipped : Nat
  indexRows : Nat
  skipErrors : Nat
  queuedItems : Nat
  deriving DecidableEq, Repr

/-- A freshly created import row (`default=STARTED`, counters at their
defaults, `total_videos` NULL). -/
def initialImport : ImportState :=
  { status := ImportStatus.started, totalVideos := none, videosImported := 0,
    videosSkipped := 0, indexRows := 0, skipErrors := 0, queuedItems := 0 }

/-- The events that act on an import job's counters:
* `dispatchBatch n` — one call of `Source.update` with a `video_iter` of `n`
  items: every item is enqueued and then `total_videos` is OVERWRITTEN with
  `n` (`sources.py` lines 76-97; `SavedSearch.update` performs one such call
  per suite that loads, `sources.py` lines 294-305).
* `itemImported` — a `video_from_vidscraper_video` worker creates the video:
  `handle_video` adds an index row and atomically increments
  `videos_imported` (`sources.py` lines 443-460).
* `itemSkipped` — the worker skips the item: `handle_error(is_skip=True)`
  adds an error row and atomically increments `videos_skipped`
  (`sources.py` lines 403-434).
* `checkPending` — one run of the `mark_import_pending` task
  (`tasks.py` lines 127-209). -/
inductive ImportEvent
  | dispatchBatch (n : Nat)
  | itemImported
  | itemSkipped
  | checkPending
  deriving DecidableEq, Repr

/-- Guards under which each event can fire.  Item workers require the import
row to still be STARTED (`tasks.py` lines 272-274); `mark_import_pending`
fetches the row with `status=STARTED` (`tasks.py` lines 136-139) and is a
retry/no-op otherwise.  `Source.update` performs no status check before
dispatching. -/
def legalEvent (s : ImportState) : ImportEvent → Bool
  | ImportEvent.dispatchBatch _ => true
  | ImportEvent.itemImported =>
      s.queuedItems != 0 && decide (s.status = ImportStatus.started)
  | ImportEvent.itemSkipped =>
      s.queuedItems != 0 && decide (s.status = ImportStatus.started)
  | ImportEvent.checkPending => decide (s.status = ImportStatus.started)

/-- Effect of each event on the import state.  For `checkPending`: if
`total_videos` is NULL the task only touches `last_activity` and retries
(`tasks.py` lines 148-150); otherwise it recomputes both counters from the
index/error rows (lines 151-158) and, when `imported + skipped` is not less
than `total_videos`, performs the bulk status assignment and sets the status
to PENDING (lines 159-197). -/
def applyEvent (s : ImportState) : ImportEvent → ImportState
  | ImportEvent.dispatchBatch n =>
      { s with queuedItems := s.queuedItems + n, totalVideos := some n }
  | ImportEvent.itemImported =>
      { s with queuedItems := s.queuedItems - 1,
               indexRows := s.indexRows + 1,
               videosImported := s.videosImported + 1 }
  | ImportEvent.itemSkipped =>
      { s with queuedItems := s.queuedItems - 1,
               skipErrors := s.skipErrors + 1,
               videosSkipped := s.videosSkipped + 1 }
  | ImportEvent.checkPending =>
      match s.totalVideos with
      | none => s
      | some t =>
          let s' := { s with videosImported := s.indexRows,
                             videosSkipped := s.skipErrors }
          if s.indexRows + s.skipErrors < t then s'
          else { s' with status := ImportStatus.pending }

/-- Run a sequence of events. -/
def runEvents (s : ImportState) : List ImportEvent → ImportState
  | [] => s
  | e :: es => runEvents (applyEvent s e) es

/-- A trace is legal when every event fires in a state satisfying its guard. -/
def legalTrace (s : ImportState) : List ImportEvent → Bool
  | [] => true
  | e :: es => legalEvent s e && legalTrace (applyEvent s e) es

/-- Number of `dispatchBatch` events in a trace.  A feed import dispatches
exactly one batch (`Feed.update` calls `Source.update` once); a search import
dispatches one batch per suite whose results load
(`SavedSearch.update` lines 294-305). -/
def dispatchCount : List ImportEvent → Nat
  | [] => 0
  | ImportEvent.dispatchBatch _ :: es => dispatchCount es + 1
  | _ :: es => dispatchCount es

/-- The inductive invariant of a single-batch (feed) import trace: the two
counter fields track the index/error row counts exactly, nothing is counted
before the batch is dispatched, and once `total_videos` is set the rows plus
the still-queued items account for exactly the batch, with the PENDING
transition only ever taken at full accounting. -/
def feedImportInvariant (s : ImportState) : Prop :=
  s.videosImported = s.indexRows ∧ s.videosSkipped = s.skipErrors ∧
  (s.totalVideos = none →
    s.indexRows = 0 ∧ s.skipErrors = 0 ∧ s.queuedItems = 0 ∧
    s.status = ImportStatus.started) ∧
  (∀ t, s.totalVideos = some t →
    s.indexRows + s.skipErrors + s.queuedItems = t ∧
    (s.status = ImportStatus.started ∨
      (s.status = ImportStatus.pending ∧ s.indexRows + s.skipErrors = t)))

/-! ## The completion reconciler (`mark_import_complete`,
`tasks.py` lines 212-262) -/

/-- Which concrete import model the task arguments name
(`import_app_label == 'localtv' and import_model == 'feedimport'`,
`tasks.py` line 254). -/
inductive ImportKind
  | feedImport
  | searchImport
  deriving DecidableEq, Repr

/-- The slice of state `mark_import_complete` reads and writes:
the import row (existence + status), the owning source's status (used for
feed imports only), the pks of the job's ACTIVE videos, the pks present in
the haystack index, and the celery retry counter of the task request. -/
structure CompleteState where
  jobExists : Bool
  jobStatus : ImportStatus
  sourceStatus : VideoStatus
  kind : ImportKind
  activeJobPks : List Nat
  indexPks : List Nat
  retries : Nat
  deriving DecidableEq, Repr

/-- How one run of a celery task ends: re-enqueued with the task's delay
(`retry()`), finished normally, or a hard failure
(`raise MaxRetriesExceededError`). -/
inductive TaskOutcome
  | retryLater
  | finished
  | hardFailed
  deriving DecidableEq, Repr

/-- `SearchQuerySet().models(Video).filter(django_id__in=video_pks).count()`
(`tasks.py` lines 240-247): how many of the job's ACTIVE video pks are
present in the index.  The `if not video_pks: haystack_count = 0` shortcut
(lines 236-238) agrees with counting over the empty list. -/
def haystackCount (activePks indexPks : List Nat) : Nat :=
  (activePks.filter (fun pk => indexPks.contains pk)).length

/-- One run of `mark_import_complete` (`tasks.py` lines 212-262).  The row is
fetched with `status=PENDING`; on `DoesNotExist` the task retries, except
that after more than 10 recorded retries it raises
`MaxRetriesExceededError` (lines 220-231).  Otherwise the job goes COMPLETE
exactly when `haystack_count >= video_count`, a completing feed import also
flips its source to ACTIVE (lines 252-256), and a job still PENDING at the
end of the run is retried (lines 261-262). -/
def markImportComplete (st : CompleteState) : CompleteState × TaskOutcome :=
  if !(st.jobExists && decide (st.jobStatus = ImportStatus.pending)) then
    if st.retries > 10 then (st, TaskOutcome.hardFailed)
    else ({ st with retries := st.retries + 1 }, TaskOutcome.retryLater)
  else
    let videoCount := st.activeJobPks.length
    let hCount := haystackCount st.activeJobPks st.indexPks
    let st1 :=
      if hCount ≥ videoCount then
        { st with jobStatus := ImportStatus.complete,
                  sourceStatus :=
                    if st.kind = ImportKind.feedImport then VideoStatus.active
                    else st.sourceStatus }
      else st
    if st1.jobStatus = ImportStatus.pending then
      ({ st1 with retries := st1.retries + 1 }, TaskOutcome.retryLater)
    else (st1, TaskOutcome.finished)

/-- The celery registration of `mark_import_complete`
(`tasks.py` line 212): `max_retries=None`, i.e. no retry ceiling imposed by
the queue itself. -/
def markImportCompleteMaxRetries : Option Nat := none

/-- The celery registration of `mark_import_complete`
(`tasks.py` line 212): `default_retry_delay=30` seconds. -/
def markImportCompleteRetryDelay : Nat := 30

/-! ## The scheduler tick (`update_sources`, `tasks.py` lines 92-101) -/

/-- The fields of a `Feed` row the tick filters on (`Feed` extends
`StatusedThumbnailable`, so it has a status). -/
structure FeedRow where
  pk : Nat
  status : VideoStatus
  autoUpdate : Bool
  deriving DecidableEq, Repr

/-- The fields of a `SavedSearch` row the tick filters on.  `SavedSearch`
extends only `Source` (`sources.py` line 241) and has no status field. -/
structure SearchRow where
  pk : Nat
  autoUpdate : Bool
  deriving DecidableEq, Repr

/-- A unit of work placed on the queue by `.delay(...)`. -/
inductive QueuedTask
  | feedUpdateTask (pk : Nat)
  | searchUpdateTask (pk : Nat)
  deriving DecidableEq, Repr

/-- `update_sources` (`tasks.py` lines 92-101): enqueues `feed_update` for
every `Feed` with `status=Feed.ACTIVE, auto_update=True` and `search_update`
for every `SavedSearch` with `auto_update=True`.  It only enqueues — the
returned value is the list of queued units, none of which is executed. -/
def updateSources (feeds : List FeedRow) (searches : List SearchRow) :
    List QueuedTask :=
  (feeds.filter (fun f => decide (f.status = VideoStatus.active) &&
      f.autoUpdate)).map (fun f => QueuedTask.feedUpdateTask f.pk)
    ++ (searches.filter (fun s => s.autoUpdate)).map
        (fun s => QueuedTask.searchUpdateTask s.pk)

/-! ## Video rows, the normalizer, and the per-item worker
(`Video.from_vidscraper_video` in `videos.py` lines 560-644,
`video_from_vidscraper_video` in `tasks.py` lines 265-369) -/

/-- A catalog `Video` row: the fields the import pipeline reads or writes.
`guid` and `website_url` are stored as plain strings with `''` defaults
(`videos.py` lines 584, 587). -/
structure VideoRow where
  pk : Nat
  site : Nat
  guid : String
  websiteUrl : String
  status : VideoStatus
  whenSubmitted : Nat
  deriving DecidableEq, Repr

/-- One scraped `vidscraper` video record as the worker sees it.  String
fields use `none` for a Python-falsy value (`None` or `''`);
`loadFails` models whether `vidscraper_video.load()` raises;
`fileUrlExpires` models the truthiness of `file_url_expires`. -/
structure ScrapedVideo where
  url : String
  loadFails : Bool
  title : Option String
  guid : Option String
  link : Option String
  fileUrl : Option String
  fileUrlExpires : Bool
  embedCode : Option String
  deriving DecidableEq, Repr

/-- Why `handle_error` was called for an item (abstracting the formatted
message strings of `tasks.py`). -/
inductive SkipReason
  | loadFailure
  | noBasicData
  | noFileOrEmbed
  | duplicateGuid
  | duplicateLink
  | unknownFailure
  deriving DecidableEq, Repr

/-- One `SourceImportError` row (`sources.py` lines 340-348): the `is_skip`
flag distinguishes skip records from informational ones. -/
structure ErrorEntry where
  reason : SkipReason
  isSkip : Bool
  deriving DecidableEq, Repr

/-- The slice of database state one `video_from_vidscraper_video` worker
touches: the tenant's videos, the job's error rows, its index-row count and
its two counters. -/
structure WorkerState where
  videos : List VideoRow
  errors : List ErrorEntry
  videosImported : Nat
  videosSkipped : Nat
  indexRows : Nat
  deriving DecidableEq, Repr

/-- `SourceImport.handle_error` (`sources.py` lines 403-434): appends an
error row; when `is_skip` it also atomically increments `videos_skipped`. -/
def handleError (s : WorkerState) (reason : SkipReason) (isSkip : Bool) :
    WorkerState :=
  { s with errors := s.errors ++ [{ reason := reason, isSkip := isSkip }],
           videosSkipped :=
             if isSkip then s.videosSkipped + 1 else s.videosSkipped }

/-- `SourceImport.handle_video` (`sources.py` lines 443-460): creates an
index row for the new video and atomically increments `videos_imported`. -/
def handleVideo (s : WorkerState) : WorkerState :=
  { s with indexRows := s.indexRows + 1,
           videosImported := s.videosImported + 1 }

/-- The normalizer `Video.from_vidscraper_video` (`videos.py` lines 560-644)
restricted to the fields modelled here.  It raises `InvalidVideo`
(modelled as `Except.error ()`) exactly when the record has neither an
`embed_code` nor a `file_url` (line 570); note the check does not consult
`file_url_expires`.  Otherwise it builds the row with
`status = status or UNAPPROVED` (lines 573-574), `guid = video.guid or ''`
and `website_url = video.link or ''` (lines 584, 587). -/
def Video.fromVidscraperVideo (v : ScrapedVideo) (status : Option VideoStatus)
    (sitePk : Nat) (newPk : Nat) (now : Nat) : Except Unit VideoRow :=
  if v.embedCode.isNone && v.fileUrl.isNone then Except.error ()
  else
    Except.ok
      { pk := newPk, site := sitePk, guid := v.guid.getD "",
        websiteUrl := v.link.getD "",
        status := status.getD VideoStatus.unapproved,
        whenSubmitted := now }

/-- The GUID dedup stage of the worker (`tasks.py` lines 308-316), run only
when the record has a truthy guid.  With `clear_rejected`, REJECTED
duplicates on the same site are deleted first; if any duplicate remains the
item is skipped (`Except.error` carries the early-returned state). -/
def guidStage (s : WorkerState) (v : ScrapedVideo) (sitePk : Nat)
    (clearRejected : Bool) : Except WorkerState WorkerState :=
  match v.guid with
  | none => Except.ok s
  | some g =>
      let videos1 :=
        if clearRejected then
          s.videos.filter (fun w => !(w.site == sitePk && w.guid == g &&
            decide (w.status = VideoStatus.rejected)))
        else s.videos
      let s1 := { s with videos := videos1 }
      if (videos1.filter (fun w => w.site == sitePk && w.guid == g)).isEmpty
      then Except.ok s1
      else Except.error (handleError s1 SkipReason.duplicateGuid true)

/-- The website-link dedup stage of the worker (`tasks.py` lines 318-327),
run only when the record has a truthy link; same shape as `guidStage`. -/
def linkStage (s : WorkerState) (v : ScrapedVideo) (sitePk : Nat)
    (clearRejected : Bool) : Except WorkerState WorkerState :=
  match v.link with
  | none => Except.ok s
  | some l =>
      let videos1 :=
        if clearRejected then
          s.videos.filter (fun w => !(w.site == sitePk && w.websiteUrl == l &&
            decide (w.status = VideoStatus.rejected)))
        else s.videos
      let s1 := { s with videos := videos1 }
      if (videos1.filter (fun w => w.site == sitePk && w.websiteUrl == l)).isEmpty
      then Except.ok s1
      else Except.error (handleError s1 SkipReason.duplicateLink true)

/-- One run of the `video_from_vidscraper_video` worker (`tasks.py` lines
265-369), assuming the import row was found in STARTED status (lines
272-274).  In source order: load failure → skip (lines 282-289); no title →
skip (lines 291-296); `(file_url_expires or not file_url) and not embed_code`
→ skip (lines 298-304); guid dedup (lines 308-316); link dedup (lines
318-327); otherwise `Video.from_vidscraper_video` builds and saves the row
and `handle_video` records it (lines 356-360).  An exception escaping that
last step — including an unexpected `InvalidVideo` — lands in the
`except Exception` handler, which records a skip error and re-raises
(lines 365-369). -/
def videoFromVidscraperVideo (s : WorkerState) (v : ScrapedVideo)
    (sitePk : Nat) (status : Option VideoStatus) (clearRejected : Bool)
    (newPk : Nat) (now : Nat) : WorkerState :=
  if v.loadFails then handleError s SkipReason.loadFailure true
  else if v.title.isNone then handleError s SkipReason.noBasicData true
  else if (v.fileUrlExpires || v.fileUrl.isNone) && v.embedCode.isNone then
    handleError s SkipReason.noFileOrEmbed true
  else
    match guidStage s v sitePk clearRejected with
    | Except.error s' => s'
    | Except.ok s1 =>
        match linkStage s1 v sitePk clearRejected with
        | Except.error s' => s'
        | Except.ok s2 =>
            match Video.fromVidscraperVideo v status sitePk newPk now with
            | Except.error _ => handleError s2 SkipReason.unknownFailure true
            | Except.ok w => handleVideo { s2 with videos := s2.videos ++ [w] }

/-! ## Bulk status assignment at first-stage completion
(`mark_import_pending`, `tasks.py` lines 166-197) -/

/-- A member of the queryset
`source_import.get_videos().filter(status=Video.PENDING)`
(`tasks.py` lines 169-170): only its pk and `when_submitted` matter to the
assignment. -/
structure PendingVideo where
  pk : Nat
  whenSubmitted : Nat
  deriving DecidableEq, Repr

/-- Result of the two bulk `update` calls (`tasks.py` lines 191-194): which
pks get status ACTIVE and which get UNAPPROVED. -/
structure StatusAssignment where
  activePks : List Nat
  unapprovedPks : List Nat
  deriving DecidableEq, Repr

/-- The bulk status assignment of `mark_import_pending` (`tasks.py` lines
166-194), applied to the job's pending videos.  With `auto_approve` false
everything goes UNAPPROVED.  With tiers unenforced everything goes ACTIVE.
Otherwise `remaining = videos_limit - site_active_count`; when
`remaining > videos_imported` everything goes ACTIVE, else the set is ordered
by `when_submitted`, the boundary timestamp is read off the row at index
`remaining`, rows strictly before it go ACTIVE and rows at-or-after it go
UNAPPROVED (lines 183-190).  `none` models the uncaught exception when the
index is out of range (IndexError) or negative (unsupported by Django
querysets). -/
def bulkAssignStatuses (pendingVids : List PendingVideo)
    (autoApprove enforceTiers : Bool) (videosLimit siteActiveCount : Nat)
    (videosImported : Nat) : Option StatusAssignment :=
  if !autoApprove then
    some { activePks := [], unapprovedPks := pendingVids.map (fun p => p.pk) }
  else if !enforceTiers then
    some { activePks := pendingVids.map (fun p => p.pk), unapprovedPks := [] }
  else
    let remaining : Int := (videosLimit : Int) - (siteActiveCount : Int)
    if remaining > (videosImported : Int) then
      some { activePks := pendingVids.map (fun p => p.pk), unapprovedPks := [] }
    else
      let sorted := pendingVids.insertionSort
        (fun a b => a.whenSubmitted ≤ b.whenSubmitted)
      if h : 0 ≤ remaining ∧ remaining.toNat < sorted.length then
        let w := (sorted.get ⟨remaining.toNat, h.2⟩).whenSubmitted
        some { activePks := (sorted.filter
                 (fun p => decide (p.whenSubmitted < w))).map (fun p => p.pk),
               unapprovedPks := (sorted.filter
                 (fun p => decide (w ≤ p.whenSubmitted))).map (fun p => p.pk) }
      else none

/-! ## The index updater (`haystack_update_index`, `tasks.py` lines 389-430) -/

/-- The externally visible effect of one `haystack_update_index` run on the
full-text index. -/
inductive IndexAction
  | upsertEntry (pk : Nat)
  | removeEntry (pk : Nat)
  | noAction
  deriving DecidableEq, Repr

/-- One run of `haystack_update_index` (`tasks.py` lines 389-430).  A removal
invocation removes the pk via a fake instance (lines 407-409).  Otherwise the
video is fetched: if it is missing only a debug line is logged (lines
411-416); if found, ACTIVE videos are upserted and all others removed
(lines 417-421). -/
def haystackUpdateIndex (videos : List VideoRow) (pk : Nat)
    (isRemoval : Bool) : IndexAction :=
  if isRemoval then IndexAction.removeEntry pk
  else
    match videos.find? (fun v => v.pk == pk) with
    | none => IndexAction.noAction
    | some v =>
        if v.status = VideoStatus.active then IndexAction.upsertEntry pk
        else IndexAction.removeEntry pk

/-! ## Theorems -/

theorem startedJobsFor_append (jobs js : List ImportJob) (srcPk : Nat) :
    startedJobsFor (jobs ++ js) srcPk =
      startedJobsFor jobs srcPk ++ startedJobsFor js srcPk :=
  List.filter_append _ _

/-- C1 counterexample: a source whose only Import Job is in the non-terminal
PENDING state.  `Feed.update` checks only for STARTED jobs, so it creates a
second job and the source now has two non-terminal Import Jobs. -/
theorem C1_pending_job_does_not_block :
    Feed.updateStart
        [{ pk := 1, sourcePk := 1, status := ImportStatus.pending,
           autoApprove := false }] 1 false 2 =
      [{ pk := 1, sourcePk := 1, status := ImportStatus.pending,
         autoApprove := false },
       { pk := 2, sourcePk := 1, status := ImportStatus.started,
         autoApprove := false }] ∧
    (nonTerminalJobsFor
        (Feed.updateStart
          [{ pk := 1, sourcePk := 1, status := ImportStatus.pending,
             autoApprove := false }] 1 false 2) 1).length = 2 := by
  decide

/-- C1 (amended): starting an update while a STARTED Import Job exists for
the source is a no-op, for feeds and for saved searches alike, and an update
never raises the source's STARTED-job count above 1.  A PENDING job does not
block a new job (see the counterexample), so only the STARTED count — not
the non-terminal count — is bounded by 1. -/
theorem C1_started_job_exclusivity (jobs : List ImportJob) (srcPk : Nat)
    (auto : Bool) (newPk : Nat)
    (h : (startedJobsFor jobs srcPk).length ≤ 1) :
    (startedJobsFor jobs srcPk ≠ [] →
      Feed.updateStart jobs srcPk auto newPk = jobs ∧
      SavedSearch.updateStart jobs srcPk auto newPk = jobs) ∧
    (startedJobsFor (Feed.updateStart jobs srcPk auto newPk) srcPk).length ≤ 1 ∧
    (startedJobsFor (SavedSearch.updateStart jobs srcPk auto newPk) srcPk).length
      ≤ 1 := by
  by_cases hemp : (startedJobsFor jobs srcPk).isEmpty
  · rw [List.isEmpty_iff] at hemp
    have hnew : ∀ au np, startedJobsFor (jobs ++
        [{ pk := np, sourcePk := srcPk, status := ImportStatus.started,
           autoApprove := au }]) srcPk =
        [{ pk := np, sourcePk := srcPk, status := ImportStatus.started,
           autoApprove := au }] := by
      intro au np
      rw [startedJobsFor_append, hemp]
      simp [startedJobsFor]
    have hfu : Feed.updateStart jobs srcPk auto newPk = jobs ++
        [{ pk := newPk, sourcePk := srcPk, status := ImportStatus.started,
           autoApprove := auto }] := by
      simp [Feed.updateStart, hemp]
    have hsu : SavedSearch.updateStart jobs srcPk auto newPk = jobs ++
        [{ pk := newPk, sourcePk := srcPk, status := ImportStatus.started,
           autoApprove := auto }] := by
      simp [SavedSearch.updateStart, hemp]
    refine ⟨fun hne => absurd hemp hne, ?_, ?_⟩
    · rw [hfu, hnew]; exact Nat.le_refl 1
    · rw [hsu, hnew]; exact Nat.le_refl 1
  · have hfu : Feed.updateStart jobs srcPk auto newPk = jobs := by
      rw [Feed.updateStart, if_neg (by simpa using hemp)]
    have hsu : SavedSearch.updateStart jobs srcPk auto newPk = jobs := by
      rw [SavedSearch.updateStart, if_neg (by simpa using hemp)]
    exact ⟨fun _ => ⟨hfu, hsu⟩, by rw [hfu]; exact h, by rw [hsu]; exact h⟩

/-- C1 witness: `C1_started_job_exclusivity` applied to a source with one
STARTED job: the update leaves the STARTED-job count at most 1. -/
theorem C1_started_job_exclusivity_witness :
    (startedJobsFor
        (Feed.updateStart
          [{ pk := 1, sourcePk := 1, status := ImportStatus.started,
             autoApprove := true }] 1 true 2) 1).length ≤ 1 ∧
    (startedJobsFor
        (SavedSearch.updateStart
          [{ pk := 1, sourcePk := 1, status := ImportStatus.started,
             autoApprove := true }] 1 true 2) 1).length ≤ 1 :=
  ⟨(C1_started_job_exclusivity
      [{ pk := 1, sourcePk := 1, status := ImportStatus.started,
         autoApprove := true }] 1 true 2 (by decide)).2.1,
   (C1_started_job_exclusivity
      [{ pk := 1, sourcePk := 1, status := ImportStatus.started,
         autoApprove := true }] 1 true 2 (by decide)).2.2⟩

/-- C10: the index-update unit of work never upserts a non-ACTIVE video.  An
upsert action implies a non-removal invocation that found the video with
ACTIVE status; every removal invocation removes the pk; a found non-ACTIVE
video is removed on a non-removal invocation. -/
theorem C10_only_active_videos_upserted (videos : List VideoRow)
    (pk p : Nat) (b : Bool) :
    (haystackUpdateIndex videos pk b = IndexAction.upsertEntry p →
      b = false ∧ p = pk ∧
      ∃ v, videos.find? (fun w => w.pk == pk) = some v ∧
        v.status = VideoStatus.active) ∧
    (b = true → haystackUpdateIndex videos pk b = IndexAction.removeEntry pk) ∧
    (∀ v, videos.find? (fun w => w.pk == pk) = some v →
      v.status ≠ VideoStatus.active →
      haystackUpdateIndex videos pk false = IndexAction.removeEntry pk) := by
  refine ⟨?_, ?_, ?_⟩
  · intro hup
    cases b with
    | true => simp [haystackUpdateIndex] at hup
    | false =>
      cases hfind : videos.find? (fun w => w.pk == pk) with
      | none => simp [haystackUpdateIndex, hfind] at hup
      | some v =>
        by_cases hv : v.status = VideoStatus.active
        · simp only [haystackUpdateIndex, Bool.false_eq_true, if_false,
            hfind, if_pos hv, IndexAction.upsertEntry.injEq] at hup
          exact ⟨rfl, hup.symm, v, rfl, hv⟩
        · simp [haystackUpdateIndex, hfind, hv] at hup
  · intro hb
    rw [hb]
    simp [haystackUpdateIndex]
  · intro v hfind hv
    simp [haystackUpdateIndex, hfind, hv]

/-- C10 witness: `C10_only_active_videos_upserted` at a store holding one
ACTIVE video, whose upsert is traced back to its ACTIVE status. -/
theorem C10_only_active_videos_upserted_witness :
    false = false ∧ 7 = 7 ∧
      ∃ v, ([{ pk := 7, site := 1, guid := "g", websiteUrl := "",
               status := VideoStatus.active,
               whenSubmitted := 0 }] : List VideoRow).find?
          (fun w => w.pk == 7) = some v ∧
        v.status = VideoStatus.active :=
  (C10_only_active_videos_upserted
      ([{ pk := 7, site := 1, guid := "g", websiteUrl := "",
          status := VideoStatus.active, whenSubmitted := 0 }] : List VideoRow)
      7 7 false).1
    (by decide)

theorem count_feedTask_map (l : List FeedRow) (p : Nat) :
    (l.map (fun f => QueuedTask.feedUpdateTask f.pk)).count
        (QueuedTask.feedUpdateTask p) = (l.map (fun f => f.pk)).count p := by
  induction l with
  | nil => rfl
  | cons g t ih =>
      simp [List.count_cons, ih, beq_iff_eq, QueuedTask.feedUpdateTask.injEq]

theorem count_searchTask_map (l : List SearchRow) (p : Nat) :
    (l.map (fun s => QueuedTask.searchUpdateTask s.pk)).count
        (QueuedTask.searchUpdateTask p) = (l.map (fun s => s.pk)).count p := by
  induction l with
  | nil => rfl
  | cons g t ih =>
      simp [List.count_cons, ih, beq_iff_eq, QueuedTask.searchUpdateTask.injEq]

theorem count_map_key_filter {α : Type} (key : α → Nat) (q : α → Bool)
    (l : List α) (f : α) (hnd : (l.map key).Nodup) (hf : f ∈ l) :
    ((l.filter q).map key).count (key f) = if q f then 1 else 0 := by
  induction l with
  | nil => cases hf
  | cons g t ih =>
    rw [List.map_cons, List.nodup_cons] at hnd
    obtain ⟨hg, hnd'⟩ := hnd
    rcases List.mem_cons.1 hf with rfl | hft
    · have h0 : ((t.filter q).map key).count (key f) = 0 := by
        rw [List.count_eq_zero]
        intro hmem
        rcases List.mem_map.1 hmem with ⟨x, hx, hxk⟩
        exact hg (hxk ▸ List.mem_map_of_mem key (List.mem_of_mem_filter hx))
      cases hq : q f
      · simp [List.filter_cons, hq, h0]
      · simp [List.filter_cons, hq, List.count_cons, h0]
    · have hne : (key g == key f) = false := by
        rw [beq_eq_false_iff_ne]
        intro he
        exact hg (he ▸ List.mem_map_of_mem key hft)
      cases hq : q g <;>
        simp [List.filter_cons, hq, List.count_cons, ih hnd' hft, hne]

/-- C9: the scheduler tick.  With distinct feed pks and distinct search pks:
every feed with auto-update enabled and ACTIVE status gets exactly one
`feed_update` unit, every saved search with auto-update enabled gets exactly
one `search_update` unit, every other source gets none, and every enqueued
unit points back at such a source (`SavedSearch` has no status field, so the
active-status condition constrains feeds only).  The tick only enqueues —
the queued units are returned unexecuted. -/
theorem C9_tick_enqueues_one_unit_per_source (feeds : List FeedRow)
    (searches : List SearchRow)
    (hf : (feeds.map (fun f => f.pk)).Nodup)
    (hs : (searches.map (fun s => s.pk)).Nodup) :
    (∀ f ∈ feeds,
      (updateSources feeds searches).count (QueuedTask.feedUpdateTask f.pk) =
        if f.status = VideoStatus.active ∧ f.autoUpdate = true then 1 else 0) ∧
    (∀ s ∈ searches,
      (updateSources feeds searches).count (QueuedTask.searchUpdateTask s.pk) =
        if s.autoUpdate = true then 1 else 0) ∧
    (∀ p, QueuedTask.feedUpdateTask p ∈ updateSources feeds searches →
      ∃ f ∈ feeds, f.pk = p ∧ f.status = VideoStatus.active ∧
        f.autoUpdate = true) ∧
    (∀ p, QueuedTask.searchUpdateTask p ∈ updateSources feeds searches →
      ∃ s ∈ searches, s.pk = p ∧ s.autoUpdate = true) := by
  refine ⟨?_, ?_, ?_, ?_⟩
  · intro f hfm
    rw [updateSources, List.count_append]
    have h2 : ((searches.filter (fun s => s.autoUpdate)).map
        (fun s => QueuedTask.searchUpdateTask s.pk)).count
          (QueuedTask.feedUpdateTask f.pk) = 0 := by
      rw [List.count_eq_zero]
      simp
    have h1 := count_map_key_filter (fun f => f.pk)
      (fun f => decide (f.status = VideoStatus.active) && f.autoUpdate)
      feeds f hf hfm
    rw [h2, Nat.add_zero, count_feedTask_map, h1]
    by_cases hc : f.status = VideoStatus.active ∧ f.autoUpdate = true
    · rw [if_pos (by simp [hc.1, hc.2]), if_pos hc]
    · rw [if_neg hc, if_neg ?_]
      simp only [Bool.and_eq_true, decide_eq_true_eq]
      exact hc
  · intro s hsm
    rw [updateSources, List.count_append]
    have h2 : ((feeds.filter (fun f =>
          decide (f.status = VideoStatus.active) && f.autoUpdate)).map
        (fun f => QueuedTask.feedUpdateTask f.pk)).count
          (QueuedTask.searchUpdateTask s.pk) = 0 := by
      rw [List.count_eq_zero]
      simp
    have h1 := count_map_key_filter (fun s => s.pk)
      (fun s => s.autoUpdate) searches s hs hsm
    rw [h2, Nat.zero_add, count_searchTask_map, h1]
  · intro p hp
    rw [updateSources, List.mem_append] at hp
    rcases hp with hp | hp
    · rcases List.mem_map.1 hp with ⟨f, hfmem, hfe⟩
      rcases List.mem_filter.1 hfmem with ⟨hfm, hq⟩
      simp only [Bool.and_eq_true, decide_eq_true_eq] at hq
      exact ⟨f, hfm, by simpa using hfe, hq.1, hq.2⟩
    · rcases List.mem_map.1 hp with ⟨s, _, hse⟩
      cases hse
  · intro p hp
    rw [updateSources, List.mem_append] at hp
    rcases hp with hp | hp
    · rcases List.mem_map.1 hp with ⟨f, _, hfe⟩
      cases hfe
    · rcases List.mem_map.1 hp with ⟨s, hsmem, hse⟩
      rcases List.mem_filter.1 hsmem with ⟨hsm, hq⟩
      exact ⟨s, hsm, by simpa using hse, hq⟩

/-- C9 witness: the tick over one qualifying feed, one inactive feed, one
auto-updating search and one non-auto-updating search.  `C9` applied to the
qualifying feed yields its unit count of 1. -/
theorem C9_tick_enqueues_one_unit_per_source_witness :
    (updateSources
        [{ pk := 1, status := VideoStatus.active, autoUpdate := true },
         { pk := 2, status := VideoStatus.unapproved, autoUpdate := true }]
        [{ pk := 5, autoUpdate := true }, { pk := 6, autoUpdate := false }]
      ).count (QueuedTask.feedUpdateTask 1) = 1 := by
  have h := (C9_tick_enqueues_one_unit_per_source
      [{ pk := 1, status := VideoStatus.active, autoUpdate := true },
       { pk := 2, status := VideoStatus.unapproved, autoUpdate := true }]
      [{ pk := 5, autoUpdate := true }, { pk := 6, autoUpdate := false }]
      (by decide) (by decide)).1
      { pk := 1, status := VideoStatus.active, autoUpdate := true }
      (by decide)
  rw [h, if_pos ⟨rfl, rfl⟩]

/-- C3: the completion reconciler applied to a job found in PENDING status.
The job transitions to COMPLETE exactly when the index count of its ACTIVE
video pks is at least the local ACTIVE count; a completing feed-type job also
flips its source to ACTIVE; otherwise the job stays PENDING, the source is
untouched and the task is re-enqueued (with the task's fixed retry delay). -/
theorem C3_reconciler_complete_iff_index_caught_up (st : CompleteState)
    (hex : st.jobExists = true) (hst : st.jobStatus = ImportStatus.pending) :
    ((markImportComplete st).1.jobStatus = ImportStatus.complete ↔
      haystackCount st.activeJobPks st.indexPks ≥ st.activeJobPks.length) ∧
    (haystackCount st.activeJobPks st.indexPks ≥ st.activeJobPks.length →
      (markImportComplete st).2 = TaskOutcome.finished ∧
      (st.kind = ImportKind.feedImport →
        (markImportComplete st).1.sourceStatus = VideoStatus.active)) ∧
    (haystackCount st.activeJobPks st.indexPks < st.activeJobPks.length →
      (markImportComplete st).1.jobStatus = ImportStatus.pending ∧
      (markImportComplete st).1.sourceStatus = st.sourceStatus ∧
      (markImportComplete st).2 = TaskOutcome.retryLater) := by
  by_cases hge : haystackCount st.activeJobPks st.indexPks ≥ st.activeJobPks.length
  · refine ⟨by simp [markImportComplete, hex, hst, hge],
      fun _ => ⟨by simp [markImportComplete, hex, hst, hge], fun hk => ?_⟩,
      fun hlt => absurd hlt (Nat.not_lt.2 hge)⟩
    simp [markImportComplete, hex, hst, hge, hk]
  · refine ⟨by simp [markImportComplete, hex, hst, hge],
      fun hge2 => absurd hge2 hge, fun _ => ?_⟩
    refine ⟨by simp [markImportComplete, hex, hst, hge],
      by simp [markImportComplete, hex, hst, hge],
      by simp [markImportComplete, hex, hst, hge]⟩

/-- C3 witness: `C3_reconciler_complete_iff_index_caught_up` on a PENDING
feed import whose 2 ACTIVE videos are both present in the index: the job
run finishes (no retry) and the source goes ACTIVE. -/
theorem C3_reconciler_complete_iff_index_caught_up_witness :
    (markImportComplete
        { jobExists := true, jobStatus := ImportStatus.pending,
          sourceStatus := VideoStatus.unapproved,
          kind := ImportKind.feedImport, activeJobPks := [4, 9],
          indexPks := [9, 4, 11], retries := 0 }).2 = TaskOutcome.finished ∧
    (markImportComplete
        { jobExists := true, jobStatus := ImportStatus.pending,
          sourceStatus := VideoStatus.unapproved,
          kind := ImportKind.feedImport, activeJobPks := [4, 9],
          indexPks := [9, 4, 11],
          retries := 0 }).1.sourceStatus = VideoStatus.active :=
  ⟨((C3_reconciler_complete_iff_index_caught_up
      { jobExists := true, jobStatus := ImportStatus.pending,
        sourceStatus := VideoStatus.unapproved, kind := ImportKind.feedImport,
        activeJobPks := [4, 9], indexPks := [9, 4, 11], retries := 0 }
      rfl rfl).2.1 (by decide)).1,
   ((C3_reconciler_complete_iff_index_caught_up
      { jobExists := true, jobStatus := ImportStatus.pending,
        sourceStatus := VideoStatus.unapproved, kind := ImportKind.feedImport,
        activeJobPks := [4, 9], indexPks := [9, 4, 11], retries := 0 }
      rfl rfl).2.1 (by decide)).2 rfl⟩

/-- C8: when the reconciler finds the import row missing or not PENDING it
hard-fails exactly when more than 10 retries have been recorded and retries
otherwise, while the convergence-not-yet-reached case retries at every
retry count (the task itself is registered with no retry ceiling). -/
theorem C8_bounded_missing_row_unbounded_convergence :
    markImportCompleteMaxRetries = none ∧
    (∀ st : CompleteState,
      (st.jobExists && decide (st.jobStatus = ImportStatus.pending)) = false →
      ((markImportComplete st).2 = TaskOutcome.hardFailed ↔ st.retries > 10) ∧
      (st.retries ≤ 10 → (markImportComplete st).2 = TaskOutcome.retryLater)) ∧
    (∀ st : CompleteState, st.jobExists = true →
      st.jobStatus = ImportStatus.pending →
      haystackCount st.activeJobPks st.indexPks < st.activeJobPks.length →
      (markImportComplete st).2 = TaskOutcome.retryLater) := by
  refine ⟨rfl, ?_, ?_⟩
  · intro st hmiss
    by_cases hr : st.retries > 10
    · exact ⟨by simp [markImportComplete, hmiss, hr], fun hle =>
        absurd hr (Nat.not_lt.2 hle)⟩
    · exact ⟨by simp [markImportComplete, hmiss, hr], fun _ =>
        by simp [markImportComplete, hmiss, hr]⟩
  · intro st hex hst hlt
    simp [markImportComplete, hex, hst, Nat.not_le.2 hlt]

/-- C8 witness: `C8_bounded_missing_row_unbounded_convergence` applied to a
vanished row at retry count 11 (hard failure) and to a not-yet-converged
PENDING row at the same retry count (still retried). -/
theorem C8_bounded_missing_row_unbounded_convergence_witness :
    ((markImportComplete
        { jobExists := false, jobStatus := ImportStatus.pending,
          sourceStatus := VideoStatus.unapproved,
          kind := ImportKind.feedImport, activeJobPks := [],
          indexPks := [], retries := 11 }).2 = TaskOutcome.hardFailed ↔
      (11 : Nat) > 10) ∧
    (markImportComplete
        { jobExists := true, jobStatus := ImportStatus.pending,
          sourceStatus := VideoStatus.unapproved,
          kind := ImportKind.feedImport, activeJobPks := [1, 2, 3, 4, 5],
          indexPks := [1, 2, 3], retries := 11 }).2 = TaskOutcome.retryLater :=
  ⟨(C8_bounded_missing_row_unbounded_convergence.2.1
      { jobExists := false, jobStatus := ImportStatus.pending,
        sourceStatus := VideoStatus.unapproved, kind := ImportKind.feedImport,
        activeJobPks := [], indexPks := [], retries := 11 } (by decide)).1,
   C8_bounded_missing_row_unbounded_convergence.2.2
      { jobExists := true, jobStatus := ImportStatus.pending,
        sourceStatus := VideoStatus.unapproved, kind := ImportKind.feedImport,
        activeJobPks := [1, 2, 3, 4, 5], indexPks := [1, 2, 3], retries := 11 }
      rfl rfl (by decide)⟩

theorem isEmpty_false_of_mem {α : Type} {a : α} {l : List α} (h : a ∈ l) :
    l.isEmpty = false := by
  cases l with
  | nil => cases h
  | cons b t => rfl

/-- C7 counterexample: a record with a title, no embed code, and a file URL
that expires.  It has no embeddable payload and no usable direct file
reference — the worker skips it as "no file or embed code" — yet the
normalizer, asked to build a Video from it, does NOT signal `InvalidVideo`:
`Video.from_vidscraper_video` checks only `embed_code` and `file_url`
(`videos.py` line 570) and ignores `file_url_expires`, so it builds a row. -/
theorem C7_normalizer_accepts_expiring_file_record :
    (({ url := "u", loadFails := false, title := some "t", guid := none,
        link := none, fileUrl := some "http://f", fileUrlExpires := true,
        embedCode := none } : ScrapedVideo).embedCode = none ∧
     ({ url := "u", loadFails := false, title := some "t", guid := none,
        link := none, fileUrl := some "http://f", fileUrlExpires := true,
        embedCode := none } : ScrapedVideo).fileUrlExpires = true) ∧
    videoFromVidscraperVideo
        { videos := [], errors := [], videosImported := 0,
          videosSkipped := 0, indexRows := 0 }
        ({ url := "u", loadFails := false, title := some "t", guid := none,
           link := none, fileUrl := some "http://f", fileUrlExpires := true,
           embedCode := none } : ScrapedVideo) 1 none true 10 0 =
      { videos := [],
        errors := [{ reason := SkipReason.noFileOrEmbed, isSkip := true }],
        videosImported := 0, videosSkipped := 1, indexRows := 0 } ∧
    Video.fromVidscraperVideo
        ({ url := "u", loadFails := false, title := some "t", guid := none,
           link := none, fileUrl := some "http://f", fileUrlExpires := true,
           embedCode := none } : ScrapedVideo) none 1 10 0 =
      Except.ok { pk := 10, site := 1, guid := "", websiteUrl := "",
                  status := VideoStatus.unapproved, whenSubmitted := 0 } :=
  ⟨⟨rfl, rfl⟩, rfl, rfl⟩

/-- C7 (amended): the per-item worker records a skip — and creates no
Video — for every loadable, titled record with no embed code and no usable
(present and non-expiring) file URL; the normalizer itself signals
`InvalidVideo` exactly for records with neither embed code nor any file URL,
so a record whose only file URL expires is rejected by the worker's check
but accepted by the normalizer. -/
theorem C7_no_payload_never_creates_video (s : WorkerState) (v : ScrapedVideo)
    (sitePk : Nat) (status : Option VideoStatus) (clearRejected : Bool)
    (newPk now : Nat) (hload : v.loadFails = false)
    (htitle : v.title.isSome = true)
    (hbad : ((v.fileUrlExpires || v.fileUrl.isNone) && v.embedCode.isNone)
      = true) :
    videoFromVidscraperVideo s v sitePk status clearRejected newPk now =
      handleError s SkipReason.noFileOrEmbed true ∧
    (videoFromVidscraperVideo s v sitePk status clearRejected newPk now).videos
      = s.videos ∧
    (∀ (v' : ScrapedVideo) (st : Option VideoStatus) (sp np nw : Nat),
      (Video.fromVidscraperVideo v' st sp np nw = Except.error ()) ↔
        (v'.embedCode = none ∧ v'.fileUrl = none)) := by
  have htitle' : v.title.isNone = false := by
    cases ht : v.title with
    | none => rw [ht] at htitle; cases htitle
    | some t => rfl
  have hrun : videoFromVidscraperVideo s v sitePk status clearRejected newPk now
      = handleError s SkipReason.noFileOrEmbed true := by
    simp [videoFromVidscraperVideo, hload, htitle', hbad]
  refine ⟨hrun, by rw [hrun]; simp [handleError], ?_⟩
  intro v' st sp np nw
  cases he : v'.embedCode <;> cases hf : v'.fileUrl <;>
    simp [Video.fromVidscraperVideo, he, hf]

/-- C7 witness: `C7_no_payload_never_creates_video` applied to a record with
no file URL and no embed code: the worker records the skip. -/
theorem C7_no_payload_never_creates_video_witness :
    videoFromVidscraperVideo
        { videos := [], errors := [], videosImported := 0,
          videosSkipped := 0, indexRows := 0 }
        ({ url := "u", loadFails := false, title := some "t", guid := none,
           link := none, fileUrl := none, fileUrlExpires := false,
           embedCode := none } : ScrapedVideo) 1 none true 3 0 =
      handleError
        { videos := [], errors := [], videosImported := 0,
          videosSkipped := 0, indexRows := 0 }
        SkipReason.noFileOrEmbed true :=
  (C7_no_payload_never_creates_video
      { videos := [], errors := [], videosImported := 0,
        videosSkipped := 0, indexRows := 0 }
      ({ url := "u", loadFails := false, title := some "t", guid := none,
         link := none, fileUrl := none, fileUrlExpires := false,
         embedCode := none } : ScrapedVideo) 1 none true 3 0
      rfl rfl rfl).1

theorem guidStage_duplicate (s : WorkerState) (v : ScrapedVideo)
    (sitePk : Nat) (clearRejected : Bool) (g : String) (w : VideoRow)
    (hguid : v.guid = some g) (hw : w ∈ s.videos) (hwsite : w.site = sitePk)
    (hwg : w.guid = g) (hwstat : w.status ≠ VideoStatus.rejected) :
    ∃ vids1, guidStage s v sitePk clearRejected =
        Except.error (handleError { s with videos := vids1 }
          SkipReason.duplicateGuid true) ∧
      (∀ u ∈ vids1, u ∈ s.videos) ∧ w ∈ vids1 ∧
      ((∀ u ∈ s.videos, u.site = sitePk → u.guid = g →
          u.status ≠ VideoStatus.rejected) → vids1 = s.videos) := by
  cases clearRejected with
  | false =>
      refine ⟨s.videos, ?_, fun u hu => hu, hw, fun _ => rfl⟩
      have hmem : w ∈ s.videos.filter
          (fun u => u.site == sitePk && u.guid == g) :=
        List.mem_filter.2 ⟨hw, by simp [hwsite, hwg]⟩
      simp only [guidStage, hguid, Bool.false_eq_true, if_false,
        isEmpty_false_of_mem hmem]
  | true =>
      refine ⟨s.videos.filter (fun u => !(u.site == sitePk && u.guid == g &&
        decide (u.status = VideoStatus.rejected))), ?_, ?_, ?_, ?_⟩
      · have hmemf : w ∈ s.videos.filter
            (fun u => !(u.site == sitePk && u.guid == g &&
              decide (u.status = VideoStatus.rejected))) :=
          List.mem_filter.2 ⟨hw, by simp [hwsite, hwg, hwstat]⟩
        have hmem : w ∈ (s.videos.filter
            (fun u => !(u.site == sitePk && u.guid == g &&
              decide (u.status = VideoStatus.rejected)))).filter
            (fun u => u.site == sitePk && u.guid == g) :=
          List.mem_filter.2 ⟨hmemf, by simp [hwsite, hwg]⟩
        simp only [guidStage, hguid, if_true, isEmpty_false_of_mem hmem,
          Bool.false_eq_true, if_false]
      · exact fun u hu => List.mem_of_mem_filter hu
      · exact List.mem_filter.2 ⟨hw, by simp [hwsite, hwg, hwstat]⟩
      · intro hnorej
        rw [List.filter_eq_self]
        intro u hu
        by_cases hus : u.site = sitePk
        · by_cases hug : u.guid = g
          · simp [hus, hug, hnorej u hu hus hug]
          · simp [hug]
        · simp [hus]

/-- C5: importing an item whose GUID matches an existing non-REJECTED video
of the same site records a skip error, increments the skipped counter,
creates no Video and leaves the matched video in place untouched; when no
REJECTED duplicate shares the GUID the catalog is entirely unchanged, so the
re-import is idempotent on the Video catalog. -/
theorem C5_duplicate_guid_is_skipped (s : WorkerState) (v : ScrapedVideo)
    (sitePk : Nat) (status : Option VideoStatus) (clearRejected : Bool)
    (newPk now : Nat) (g : String) (w : VideoRow)
    (hload : v.loadFails = false) (htitle : v.title.isSome = true)
    (hgood : ((v.fileUrlExpires || v.fileUrl.isNone) && v.embedCode.isNone)
      = false)
    (hguid : v.guid = some g) (hw : w ∈ s.videos) (hwsite : w.site = sitePk)
    (hwg : w.guid = g) (hwstat : w.status ≠ VideoStatus.rejected) :
    (videoFromVidscraperVideo s v sitePk status clearRejected newPk now).errors
        = s.errors ++ [{ reason := SkipReason.duplicateGuid, isSkip := true }] ∧
    (videoFromVidscraperVideo s v sitePk status clearRejected newPk
        now).videosSkipped = s.videosSkipped + 1 ∧
    (videoFromVidscraperVideo s v sitePk status clearRejected newPk
        now).videosImported = s.videosImported ∧
    (videoFromVidscraperVideo s v sitePk status clearRejected newPk
        now).indexRows = s.indexRows ∧
    (∀ u ∈ (videoFromVidscraperVideo s v sitePk status clearRejected newPk
        now).videos, u ∈ s.videos) ∧
    w ∈ (videoFromVidscraperVideo s v sitePk status clearRejected newPk
        now).videos ∧
    ((∀ u ∈ s.videos, u.site = sitePk → u.guid = g →
        u.status ≠ VideoStatus.rejected) →
      (videoFromVidscraperVideo s v sitePk status clearRejected newPk
        now).videos = s.videos) := by
  have htitle' : v.title.isNone = false := by
    cases ht : v.title with
    | none => rw [ht] at htitle; cases htitle
    | some t => rfl
  obtain ⟨vids1, hstage, hsub, hwin, hid⟩ :=
    guidStage_duplicate s v sitePk clearRejected g w hguid hw hwsite hwg hwstat
  have hrun : videoFromVidscraperVideo s v sitePk status clearRejected newPk now
      = handleError { s with videos := vids1 } SkipReason.duplicateGuid true := by
    simp [videoFromVidscraperVideo, hload, htitle', hgood, hstage]
  rw [hrun]
  exact ⟨rfl, rfl, rfl, rfl, hsub, hwin, fun h => by rw [hid h]; rfl⟩

/-- C5 witness: `C5_duplicate_guid_is_skipped` on a catalog holding one
ACTIVE video with guid "g": re-importing an item with guid "g" increments
the skipped counter and leaves the catalog unchanged. -/
theorem C5_duplicate_guid_is_skipped_witness :
    (videoFromVidscraperVideo
        { videos := [{ pk := 1, site := 1, guid := "g", websiteUrl := "w",
                       status := VideoStatus.active, whenSubmitted := 0 }],
          errors := [], videosImported := 3, videosSkipped := 0,
          indexRows := 3 }
        ({ url := "u", loadFails := false, title := some "t",
           guid := some "g", link := some "w", fileUrl := none,
           fileUrlExpires := false, embedCode := some "<e>" } : ScrapedVideo)
        1 none true 9 5).videosSkipped = 0 + 1 ∧
    (videoFromVidscraperVideo
        { videos := [{ pk := 1, site := 1, guid := "g", websiteUrl := "w",
                       status := VideoStatus.active, whenSubmitted := 0 }],
          errors := [], videosImported := 3, videosSkipped := 0,
          indexRows := 3 }
        ({ url := "u", loadFails := false, title := some "t",
           guid := some "g", link := some "w", fileUrl := none,
           fileUrlExpires := false, embedCode := some "<e>" } : ScrapedVideo)
        1 none true 9 5).videos =
      [{ pk := 1, site := 1, guid := "g", websiteUrl := "w",
         status := VideoStatus.active, whenSubmitted := 0 }] :=
  ⟨(C5_duplicate_guid_is_skipped
      { videos := [{ pk := 1, site := 1, guid := "g", websiteUrl := "w",
                     status := VideoStatus.active, whenSubmitted := 0 }],
        errors := [], videosImported := 3, videosSkipped := 0,
        indexRows := 3 }
      ({ url := "u", loadFails := false, title := some "t",
         guid := some "g", link := some "w", fileUrl := none,
         fileUrlExpires := false, embedCode := some "<e>" } : ScrapedVideo)
      1 none true 9 5 "g"
      { pk := 1, site := 1, guid := "g", websiteUrl := "w",
        status := VideoStatus.active, whenSubmitted := 0 }
      rfl rfl rfl rfl (by decide) rfl rfl (by decide)).2.1,
   (C5_duplicate_guid_is_skipped
      { videos := [{ pk := 1, site := 1, guid := "g", websiteUrl := "w",
                     status := VideoStatus.active, whenSubmitted := 0 }],
        errors := [], videosImported := 3, videosSkipped := 0,
        indexRows := 3 }
      ({ url := "u", loadFails := false, title := some "t",
         guid := some "g", link := some "w", fileUrl := none,
         fileUrlExpires := false, embedCode := some "<e>" } : ScrapedVideo)
      1 none true 9 5 "g"
      { pk := 1, site := 1, guid := "g", websiteUrl := "w",
        status := VideoStatus.active, whenSubmitted := 0 }
      rfl rfl rfl rfl (by decide) rfl rfl
      (by decide)).2.2.2.2.2.2 (by decide)⟩

/-- C6: importing an item whose GUID only matches REJECTED videos of the
site, with the purge-rejected flag set, deletes those REJECTED duplicates
and creates a fresh Video carrying the caller's status (UNAPPROVED when the
caller passes none, per the normalizer's default): the catalog becomes
the old catalog minus the site's guid matches plus the fresh row, the
imported counter and index-row count are incremented, and no error is
recorded. -/
theorem C6_rejected_duplicate_superseded (s : WorkerState) (v : ScrapedVideo)
    (sitePk : Nat) (status : Option VideoStatus) (newPk now : Nat) (g : String)
    (hload : v.loadFails = false) (htitle : v.title.isSome = true)
    (hgood : ((v.fileUrlExpires || v.fileUrl.isNone) && v.embedCode.isNone)
      = false)
    (hguid : v.guid = some g)
    (_hdup : ∃ w ∈ s.videos, w.site = sitePk ∧ w.guid = g)
    (hallrej : ∀ u ∈ s.videos, u.site = sitePk → u.guid = g →
      u.status = VideoStatus.rejected)
    (hlink : ∀ l, v.link = some l → ∀ u ∈ s.videos, u.site = sitePk →
      u.websiteUrl = l → u.guid = g ∧ u.status = VideoStatus.rejected) :
    videoFromVidscraperVideo s v sitePk status true newPk now =
      { videos := s.videos.filter
          (fun u => !(u.site == sitePk && u.guid == g)) ++
          [{ pk := newPk, site := sitePk, guid := g,
             websiteUrl := v.link.getD "",
             status := status.getD VideoStatus.unapproved,
             whenSubmitted := now }],
        errors := s.errors,
        videosImported := s.videosImported + 1,
        videosSkipped := s.videosSkipped,
        indexRows := s.indexRows + 1 } := by
  have htitle' : v.title.isNone = false := by
    cases ht : v.title with
    | none => rw [ht] at htitle; cases htitle
    | some t => rfl
  have hfeq : s.videos.filter (fun u => !(u.site == sitePk && u.guid == g &&
      decide (u.status = VideoStatus.rejected))) =
      s.videos.filter (fun u => !(u.site == sitePk && u.guid == g)) := by
    apply List.filter_congr
    intro u hu
    by_cases hus : u.site = sitePk
    · by_cases hug : u.guid = g
      · simp [hus, hug, hallrej u hu hus hug]
      · simp [hug]
    · simp [hus]
  have hnoguid : ∀ u ∈ s.videos.filter
      (fun u => !(u.site == sitePk && u.guid == g)),
      (u.site == sitePk && u.guid == g) = false := by
    intro u hu
    have h2 := (List.mem_filter.1 hu).2
    cases hb : (u.site == sitePk && u.guid == g) with
    | false => rfl
    | true => rw [hb] at h2; simp at h2
  have hsub1 : ∀ u ∈ s.videos.filter
      (fun u => !(u.site == sitePk && u.guid == g)), u ∈ s.videos :=
    fun u hu => List.mem_of_mem_filter hu
  have hstage1 : guidStage s v sitePk true = Except.ok
      ⟨s.videos.filter (fun u => !(u.site == sitePk && u.guid == g)),
       s.errors, s.videosImported, s.videosSkipped, s.indexRows⟩ := by
    have hempty : ((s.videos.filter
        (fun u => !(u.site == sitePk && u.guid == g))).filter
          (fun u => u.site == sitePk && u.guid == g)) = [] :=
      List.filter_eq_nil_iff.2 (fun u hu => by simp [hnoguid u hu])
    simp only [guidStage, hguid, if_true, hfeq, hempty, List.isEmpty_nil,
      if_true]
  have hstage2 : linkStage
      ⟨s.videos.filter (fun u => !(u.site == sitePk && u.guid == g)),
       s.errors, s.videosImported, s.videosSkipped, s.indexRows⟩ v sitePk true =
      Except.ok
        ⟨s.videos.filter (fun u => !(u.site == sitePk && u.guid == g)),
         s.errors, s.videosImported, s.videosSkipped, s.indexRows⟩ := by
    cases hl : v.link with
    | none => simp [linkStage, hl]
    | some l =>
        have hnolink : ∀ u ∈ s.videos.filter
            (fun u => !(u.site == sitePk && u.guid == g)),
            (u.site == sitePk && u.websiteUrl == l) = false := by
          intro u hu
          by_cases hus : u.site = sitePk
          · by_cases huw : u.websiteUrl = l
            · obtain ⟨hug, _⟩ := hlink l hl u (hsub1 u hu) hus huw
              have hng := hnoguid u hu
              rw [hus, hug] at hng
              simp at hng
            · simp [huw]
          · simp [hus]
        have hdel : (s.videos.filter
            (fun u => !(u.site == sitePk && u.guid == g))).filter
            (fun u => !(u.site == sitePk && u.websiteUrl == l &&
              decide (u.status = VideoStatus.rejected))) =
            s.videos.filter (fun u => !(u.site == sitePk && u.guid == g)) :=
          List.filter_eq_self.2 (fun u hu => by simp [hnolink u hu])
        have hempty : ((s.videos.filter
            (fun u => !(u.site == sitePk && u.guid == g))).filter
              (fun u => u.site == sitePk && u.websiteUrl == l)) = [] :=
          List.filter_eq_nil_iff.2 (fun u hu => by simp [hnolink u hu])
        simp only [linkStage, hl, if_true, hdel, hempty, List.isEmpty_nil]
  have hnn : (v.embedCode.isNone && v.fileUrl.isNone) = false := by
    cases he : v.embedCode.isNone with
    | false => simp
    | true =>
        rw [he, Bool.and_true] at hgood
        rw [Bool.or_eq_false_iff] at hgood
        simp [hgood.2]
  have hnorm : Video.fromVidscraperVideo v status sitePk newPk now =
      Except.ok { pk := newPk, site := sitePk, guid := g,
                  websiteUrl := v.link.getD "",
                  status := status.getD VideoStatus.unapproved,
                  whenSubmitted := now } := by
    simp [Video.fromVidscraperVideo, hnn, hguid]
  simp only [videoFromVidscraperVideo, hload, Bool.false_eq_true, if_false,
    htitle', hgood, hstage1, hstage2, hnorm, handleVideo]

/-- C6 witness: `C6_rejected_duplicate_superseded` on a catalog whose only
guid-"g" video is REJECTED: the rejected copy is deleted and a fresh
UNAPPROVED video is created. -/
theorem C6_rejected_duplicate_superseded_witness :
    videoFromVidscraperVideo
        { videos := [{ pk := 1, site := 1, guid := "g", websiteUrl := "w",
                       status := VideoStatus.rejected, whenSubmitted := 0 }],
          errors := [], videosImported := 0, videosSkipped := 0,
          indexRows := 0 }
        ({ url := "u", loadFails := false, title := some "t",
           guid := some "g", link := some "w", fileUrl := none,
           fileUrlExpires := false, embedCode := some "<e>" } : ScrapedVideo)
        1 none true 9 5 =
      { videos := ([{ pk := 1, site := 1, guid := "g", websiteUrl := "w",
                      status := VideoStatus.rejected,
                      whenSubmitted := 0 }] : List VideoRow).filter
          (fun u => !(u.site == 1 && u.guid == "g")) ++
          [{ pk := 9, site := 1, guid := "g",
             websiteUrl := (some "w").getD "",
             status := (none : Option VideoStatus).getD VideoStatus.unapproved,
             whenSubmitted := 5 }],
        errors := [], videosImported := 0 + 1, videosSkipped := 0,
        indexRows := 0 + 1 } :=
  C6_rejected_duplicate_superseded
    { videos := [{ pk := 1, site := 1, guid := "g", websiteUrl := "w",
                   status := VideoStatus.rejected, whenSubmitted := 0 }],
      errors := [], videosImported := 0, videosSkipped := 0, indexRows := 0 }
    ({ url := "u", loadFails := false, title := some "t", guid := some "g",
       link := some "w", fileUrl := none, fileUrlExpires := false,
       embedCode := some "<e>" } : ScrapedVideo)
    1 none 9 5 "g" rfl rfl rfl rfl
    ⟨{ pk := 1, site := 1, guid := "g", websiteUrl := "w",
       status := VideoStatus.rejected, whenSubmitted := 0 },
     by decide, rfl, rfl⟩
    (by decide) (by decide)

theorem filter_lt_boundary_eq_take (l : List PendingVideo) (r : Nat)
    (hr : r < l.length)
    (hsort : List.Pairwise
      (fun a b => a.whenSubmitted < b.whenSubmitted) l) :
    l.filter (fun p => decide (p.whenSubmitted <
      (l.get ⟨r, hr⟩).whenSubmitted)) = l.take r := by
  induction l generalizing r with
  | nil => cases hr
  | cons a t ih =>
      rcases List.pairwise_cons.1 hsort with ⟨ha, ht⟩
      cases r with
      | zero =>
          rw [List.take_zero]
          refine List.filter_eq_nil_iff.2 ?_
          intro p hp
          rcases List.mem_cons.1 hp with rfl | hpt
          · simp
          · simp only [decide_eq_true_eq]
            exact Nat.not_lt.2 (Nat.le_of_lt (ha p hpt))
      | succ r' =>
          have hr' : r' < t.length := Nat.lt_of_succ_lt_succ hr
          have hget : ((a :: t).get ⟨r' + 1, hr⟩) = t.get ⟨r', hr'⟩ := rfl
          rw [hget, List.take_succ_cons, List.filter_cons]
          have hkeep : (decide (a.whenSubmitted <
              (t.get ⟨r', hr'⟩).whenSubmitted)) = true := by
            simp only [decide_eq_true_eq]
            exact ha _ (t.get_mem r' hr')
          rw [hkeep, if_pos rfl, ih r' hr' ht]

theorem filter_ge_boundary_eq_drop (l : List PendingVideo) (r : Nat)
    (hr : r < l.length)
    (hsort : List.Pairwise
      (fun a b => a.whenSubmitted < b.whenSubmitted) l) :
    l.filter (fun p => decide ((l.get ⟨r, hr⟩).whenSubmitted ≤
      p.whenSubmitted)) = l.drop r := by
  induction l generalizing r with
  | nil => cases hr
  | cons a t ih =>
      rcases List.pairwise_cons.1 hsort with ⟨ha, ht⟩
      cases r with
      | zero =>
          rw [List.drop_zero]
          refine List.filter_eq_self.2 ?_
          intro p hp
          rcases List.mem_cons.1 hp with rfl | hpt
          · simp
          · simp only [decide_eq_true_eq]
            exact Nat.le_of_lt (ha p hpt)
      | succ r' =>
          have hr' : r' < t.length := Nat.lt_of_succ_lt_succ hr
          have hget : ((a :: t).get ⟨r' + 1, hr⟩) = t.get ⟨r', hr'⟩ := rfl
          rw [hget, List.drop_succ_cons, List.filter_cons]
          have hdrop : (decide ((t.get ⟨r', hr'⟩).whenSubmitted ≤
              a.whenSubmitted)) = false := by
            simp only [decide_eq_false_iff_not]
            exact Nat.not_le.2 (ha _ (t.get_mem r' hr'))
          rw [hdrop, if_neg (by simp), ih r' hr' ht]

theorem filter_lt_boundary_eq_take2 (l l2 : List PendingVideo) (r : Nat)
    (hr : r < l2.length) (heq : l2 = l)
    (hsort : List.Pairwise
      (fun a b => a.whenSubmitted < b.whenSubmitted) l) :
    l.filter (fun p => decide (p.whenSubmitted <
      (l2.get ⟨r, hr⟩).whenSubmitted)) = l.take r := by
  subst heq
  exact filter_lt_boundary_eq_take l2 r hr hsort

theorem filter_ge_boundary_eq_drop2 (l l2 : List PendingVideo) (r : Nat)
    (hr : r < l2.length) (heq : l2 = l)
    (hsort : List.Pairwise
      (fun a b => a.whenSubmitted < b.whenSubmitted) l) :
    l.filter (fun p => decide ((l2.get ⟨r, hr⟩).whenSubmitted ≤
      p.whenSubmitted)) = l.drop r := by
  subst heq
  exact filter_ge_boundary_eq_drop l2 r hr hsort

/-- C4 counterexample: three pending videos submitted at the same instant,
capacity 2 of 3 (`videos_limit = 2`, no ACTIVE videos on the site,
`videos_imported = 3`, auto-approve on, tiers enforced).  The claim demands
exactly 2 videos become ACTIVE; the code's boundary is
`when_submitted < sorted[2].when_submitted`, which no video satisfies when
the timestamps tie, so 0 become ACTIVE and all 3 become UNAPPROVED. -/
theorem C4_tied_timestamps_approve_nothing :
    bulkAssignStatuses
        [{ pk := 1, whenSubmitted := 5 }, { pk := 2, whenSubmitted := 5 },
         { pk := 3, whenSubmitted := 5 }] true true 2 0 3 =
      some { activePks := [], unapprovedPks := [1, 2, 3] } := by
  decide

/-- C4 (amended): if the job's snapshotted auto-approve is false every
pending video is set to UNAPPROVED.  If auto-approve is true, tiers are
enforced and the remaining capacity `videos_limit - site_active_count` does
not exceed `videos_imported`, then — provided the pending videos have
strictly increasing submission times and the capacity is within range —
exactly the capacity-limited number of earliest-submitted videos become
ACTIVE and the rest UNAPPROVED.  (With tied submission times the boundary
filter approves fewer, per the counterexample.) -/
theorem C4_bulk_assignment_capacity (pendingVids : List PendingVideo)
    (autoApprove enforceTiers : Bool)
    (videosLimit siteActiveCount videosImported : Nat) :
    (autoApprove = false →
      bulkAssignStatuses pendingVids autoApprove enforceTiers videosLimit
          siteActiveCount videosImported =
        some { activePks := [],
               unapprovedPks := pendingVids.map (fun p => p.pk) }) ∧
    (List.Pairwise (fun a b => a.whenSubmitted < b.whenSubmitted)
        pendingVids →
      ¬((videosLimit : Int) - (siteActiveCount : Int) >
        (videosImported : Int)) →
      siteActiveCount ≤ videosLimit →
      ((videosLimit : Int) - (siteActiveCount : Int)).toNat <
        pendingVids.length →
      bulkAssignStatuses pendingVids true true videosLimit siteActiveCount
          videosImported =
        some { activePks := (pendingVids.take
                 ((videosLimit : Int) - (siteActiveCount : Int)).toNat).map
                   (fun p => p.pk),
               unapprovedPks := (pendingVids.drop
                 ((videosLimit : Int) - (siteActiveCount : Int)).toNat).map
                   (fun p => p.pk) } ∧
      ((pendingVids.take
          ((videosLimit : Int) - (siteActiveCount : Int)).toNat).map
            (fun p => p.pk)).length =
        ((videosLimit : Int) - (siteActiveCount : Int)).toNat) := by
  constructor
  · intro ha
    simp [bulkAssignStatuses, ha]
  · intro hsort hnotgt hcap hlen
    have hsorted : List.Sorted
        (fun a b : PendingVideo => a.whenSubmitted ≤ b.whenSubmitted)
        pendingVids := hsort.imp (fun hab => Nat.le_of_lt hab)
    have hsorteq : pendingVids.insertionSort
        (fun a b => a.whenSubmitted ≤ b.whenSubmitted) = pendingVids :=
      List.Sorted.insertionSort_eq hsorted
    have h0 : (0 : Int) ≤ (videosLimit : Int) - (siteActiveCount : Int) := by
      omega
    constructor
    · rw [bulkAssignStatuses]
      simp only [Bool.not_true, Bool.false_eq_true, if_false, hsorteq,
        if_neg hnotgt]
      rw [dif_pos ⟨h0, hlen⟩]
      rw [filter_lt_boundary_eq_take2 pendingVids
          (pendingVids.insertionSort
            (fun a b => a.whenSubmitted ≤ b.whenSubmitted))
          ((videosLimit : Int) - (siteActiveCount : Int)).toNat
          (by rw [hsorteq]; exact hlen) hsorteq hsort,
        filter_ge_boundary_eq_drop2 pendingVids
          (pendingVids.insertionSort
            (fun a b => a.whenSubmitted ≤ b.whenSubmitted))
          ((videosLimit : Int) - (siteActiveCount : Int)).toNat
          (by rw [hsorteq]; exact hlen) hsorteq hsort]
    · rw [List.length_map, List.length_take]
      exact Nat.min_eq_left (Nat.le_of_lt hlen)

/-- C4 witness: `C4_bulk_assignment_capacity` with three distinct submission
times and capacity 2: the two earliest become ACTIVE and the third
UNAPPROVED. -/
theorem C4_bulk_assignment_capacity_witness :
    bulkAssignStatuses
        [{ pk := 1, whenSubmitted := 4 }, { pk := 2, whenSubmitted := 5 },
         { pk := 3, whenSubmitted := 6 }] true true 2 0 3 =
      some { activePks := (([{ pk := 1, whenSubmitted := 4 },
               { pk := 2, whenSubmitted := 5 },
               { pk := 3, whenSubmitted := 6 }] : List PendingVideo).take
                 ((2 : Int) - (0 : Int)).toNat).map (fun p => p.pk),
             unapprovedPks := (([{ pk := 1, whenSubmitted := 4 },
               { pk := 2, whenSubmitted := 5 },
               { pk := 3, whenSubmitted := 6 }] : List PendingVideo).drop
                 ((2 : Int) - (0 : Int)).toNat).map (fun p => p.pk) } ∧
    ((([{ pk := 1, whenSubmitted := 4 }, { pk := 2, whenSubmitted := 5 },
        { pk := 3, whenSubmitted := 6 }] : List PendingVideo).take
          ((2 : Int) - (0 : Int)).toNat).map (fun p => p.pk)).length =
      ((2 : Int) - (0 : Int)).toNat :=
  (C4_bulk_assignment_capacity
      [{ pk := 1, whenSubmitted := 4 }, { pk := 2, whenSubmitted := 5 },
       { pk := 3, whenSubmitted := 6 }] true true 2 0 3).2
    (by decide) (by decide) (by decide) (by decide)

theorem feedImportInvariant_preserved (evs : List ImportEvent) :
    ∀ s : ImportState, feedImportInvariant s → legalTrace s evs = true →
      dispatchCount evs +
        (match s.totalVideos with | none => 0 | some _ => 1) ≤ 1 →
      feedImportInvariant (runEvents s evs) := by
  induction evs with
  | nil => intro s hInv _ _; exact hInv
  | cons e es ih =>
      intro s hInv hLegal hDisp
      rw [legalTrace, Bool.and_eq_true] at hLegal
      obtain ⟨hle, hlt⟩ := hLegal
      rw [runEvents]
      obtain ⟨hImp, hSkp, hNone, hSome⟩ := hInv
      cases e with
      | dispatchBatch n =>
          cases htot : s.totalVideos with
          | some t => simp only [dispatchCount, htot] at hDisp; omega
          | none =>
              obtain ⟨h1, h2, h3, h4⟩ := hNone htot
              simp only [dispatchCount, htot] at hDisp
              apply ih
              · refine ⟨hImp, hSkp, ?_, ?_⟩
                · intro hc
                  have hc2 : (some n : Option Nat) = none := hc
                  cases hc2
                · intro t' ht'
                  have ht2 : (some n : Option Nat) = some t' := ht'
                  obtain rfl : n = t' := Option.some.inj ht2
                  refine ⟨?_, Or.inl ?_⟩
                  · show s.indexRows + s.skipErrors + (s.queuedItems + n) = n
                    omega
                  · show s.status = ImportStatus.started
                    exact h4
              · exact hlt
              · show dispatchCount es + 1 ≤ 1
                omega
      | itemImported =>
          rw [legalEvent, Bool.and_eq_true] at hle
          obtain ⟨hq, hst⟩ := hle
          have hq2 : s.queuedItems ≠ 0 := by simpa using hq
          have hst2 : s.status = ImportStatus.started := of_decide_eq_true hst
          cases htot : s.totalVideos with
          | none => exact absurd (hNone htot).2.2.1 hq2
          | some t =>
              obtain ⟨hsum, _⟩ := hSome t htot
              apply ih
              · refine ⟨?_, ?_, ?_, ?_⟩
                · show s.videosImported + 1 = s.indexRows + 1
                  omega
                · exact hSkp
                · intro hc
                  have hc2 : s.totalVideos = none := hc
                  rw [htot] at hc2
                  cases hc2
                · intro t' ht'
                  have ht2 : s.totalVideos = some t' := ht'
                  rw [htot] at ht2
                  obtain rfl : t = t' := Option.some.inj ht2
                  refine ⟨?_, Or.inl ?_⟩
                  · show s.indexRows + 1 + s.skipErrors + (s.queuedItems - 1) = t
                    omega
                  · show s.status = ImportStatus.started
                    exact hst2
              · exact hlt
              · show dispatchCount es +
                    (match s.totalVideos with | none => 0 | some _ => 1) ≤ 1
                simp only [dispatchCount] at hDisp
                exact hDisp
      | itemSkipped =>
          rw [legalEvent, Bool.and_eq_true] at hle
          obtain ⟨hq, hst⟩ := hle
          have hq2 : s.queuedItems ≠ 0 := by simpa using hq
          have hst2 : s.status = ImportStatus.started := of_decide_eq_true hst
          cases htot : s.totalVideos with
          | none => exact absurd (hNone htot).2.2.1 hq2
          | some t =>
              obtain ⟨hsum, _⟩ := hSome t htot
              apply ih
              · refine ⟨?_, ?_, ?_, ?_⟩
                · exact hImp
                · show s.videosSkipped + 1 = s.skipErrors + 1
                  omega
                · intro hc
                  have hc2 : s.totalVideos = none := hc
                  rw [htot] at hc2
                  cases hc2
                · intro t' ht'
                  have ht2 : s.totalVideos = some t' := ht'
                  rw [htot] at ht2
                  obtain rfl : t = t' := Option.some.inj ht2
                  refine ⟨?_, Or.inl ?_⟩
                  · show s.indexRows + (s.skipErrors + 1) + (s.queuedItems - 1)
                      = t
                    omega
                  · show s.status = ImportStatus.started
                    exact hst2
              · exact hlt
              · show dispatchCount es +
                    (match s.totalVideos with | none => 0 | some _ => 1) ≤ 1
                simp only [dispatchCount] at hDisp
                exact hDisp
      | checkPending =>
          have hst2 : s.status = ImportStatus.started := of_decide_eq_true hle
          simp only [dispatchCount] at hDisp
          cases htot : s.totalVideos with
          | none =>
              have happ : applyEvent s ImportEvent.checkPending = s := by
                simp [applyEvent, htot]
              rw [happ] at hlt ⊢
              exact ih s ⟨hImp, hSkp, hNone, hSome⟩ hlt hDisp
          | some t =>
              obtain ⟨hsum, _⟩ := hSome t htot
              by_cases hlt2 : s.indexRows + s.skipErrors < t
              · have happ : applyEvent s ImportEvent.checkPending =
                    { s with videosImported := s.indexRows,
                             videosSkipped := s.skipErrors } := by
                  simp [applyEvent, htot, hlt2]
                rw [happ] at hlt ⊢
                apply ih _ ?_ hlt ?_
                · refine ⟨rfl, rfl, ?_, ?_⟩
                  · intro hc
                    have hc2 : s.totalVideos = none := hc
                    rw [htot] at hc2
                    cases hc2
                  · intro t' ht'
                    have ht2 : s.totalVideos = some t' := ht'
                    rw [htot] at ht2
                    obtain rfl : t = t' := Option.some.inj ht2
                    refine ⟨?_, Or.inl ?_⟩
                    · show s.indexRows + s.skipErrors + s.queuedItems = t
                      exact hsum
                    · show s.status = ImportStatus.started
                      exact hst2
                · show dispatchCount es +
                      (match s.totalVideos with | none => 0 | some _ => 1) ≤ 1
                  exact hDisp
              · have happ : applyEvent s ImportEvent.checkPending =
                    { s with videosImported := s.indexRows,
                             videosSkipped := s.skipErrors,
                             status := ImportStatus.pending } := by
                  simp [applyEvent, htot, hlt2]
                rw [happ] at hlt ⊢
                apply ih _ ?_ hlt ?_
                · refine ⟨rfl, rfl, ?_, ?_⟩
                  · intro hc
                    have hc2 : s.totalVideos = none := hc
                    rw [htot] at hc2
                    cases hc2
                  · intro t' ht'
                    have ht2 : s.totalVideos = some t' := ht'
                    rw [htot] at ht2
                    obtain rfl : t = t' := Option.some.inj ht2
                    refine ⟨?_, Or.inr ⟨rfl, ?_⟩⟩
                    · show s.indexRows + s.skipErrors + s.queuedItems = t
                      exact hsum
                    · show s.indexRows + s.skipErrors = t
                      omega
                · show dispatchCount es +
                      (match s.totalVideos with | none => 0 | some _ => 1) ≤ 1
                  exact hDisp

/-- C2 counterexample: a search import over two suites.  The first
`Source.update` call dispatches a 2-item batch and records
`total_videos = 2`; both items are imported; the second call dispatches a
1-item batch and OVERWRITES `total_videos` with 1; the item is imported.
The trace is legal, yet `videos_imported + videos_skipped = 3` exceeds the
known `total_videos = 1`. -/
theorem C2_second_batch_overwrites_total :
    legalTrace initialImport
        [ImportEvent.dispatchBatch 2, ImportEvent.itemImported,
         ImportEvent.itemImported, ImportEvent.dispatchBatch 1,
         ImportEvent.itemImported] = true ∧
    (runEvents initialImport
        [ImportEvent.dispatchBatch 2, ImportEvent.itemImported,
         ImportEvent.itemImported, ImportEvent.dispatchBatch 1,
         ImportEvent.itemImported]).totalVideos = some 1 ∧
    (runEvents initialImport
        [ImportEvent.dispatchBatch 2, ImportEvent.itemImported,
         ImportEvent.itemImported, ImportEvent.dispatchBatch 1,
         ImportEvent.itemImported]).videosImported +
      (runEvents initialImport
        [ImportEvent.dispatchBatch 2, ImportEvent.itemImported,
         ImportEvent.itemImported, ImportEvent.dispatchBatch 1,
         ImportEvent.itemImported]).videosSkipped = 3 := by
  decide

/-- C2 (amended): along any legal trace of a fresh import job that dispatches
at most one batch (every feed import; search imports whose search loads a
single suite batch), once `total_videos` is set,
`videos_imported + videos_skipped` never exceeds it, and the job is PENDING
only when the counters exactly equal `total_videos` — the STARTED→PENDING
transition happens at full accounting only.  Search imports that dispatch
several suite batches overwrite `total_videos` and break the bound (see the
counterexample). -/
theorem C2_single_batch_counters_bounded (evs : List ImportEvent)
    (hLegal : legalTrace initialImport evs = true)
    (hDisp : dispatchCount evs ≤ 1) :
    (∀ t, (runEvents initialImport evs).totalVideos = some t →
      (runEvents initialImport evs).videosImported +
        (runEvents initialImport evs).videosSkipped ≤ t) ∧
    ((runEvents initialImport evs).status = ImportStatus.pending →
      ∃ t, (runEvents initialImport evs).totalVideos = some t ∧
        (runEvents initialImport evs).videosImported +
          (runEvents initialImport evs).videosSkipped = t) := by
  have hInit : feedImportInvariant initialImport := by
    refine ⟨rfl, rfl, fun _ => ⟨rfl, rfl, rfl, rfl⟩, fun t ht => ?_⟩
    simp [initialImport] at ht
  have hInv := feedImportInvariant_preserved evs initialImport hInit hLegal
    (by simpa [initialImport] using hDisp)
  obtain ⟨hImp, hSkp, hNone2, hSome⟩ := hInv
  constructor
  · intro t ht
    obtain ⟨hsum, _⟩ := hSome t ht
    omega
  · intro hp
    cases htot : (runEvents initialImport evs).totalVideos with
    | none =>
        obtain ⟨_, _, _, hstat⟩ := hNone2 htot
        rw [hstat] at hp
        cases hp
    | some t =>
        obtain ⟨hsum, hstat⟩ := hSome t htot
        rcases hstat with hs | ⟨_, heq⟩
        · rw [hs] at hp; cases hp
        · exact ⟨t, rfl, by omega⟩

/-- C2 witness: `C2_single_batch_counters_bounded` on the one-batch trace
dispatch(1) → import → check: the counters stay within the total. -/
theorem C2_single_batch_counters_bounded_witness :
    (runEvents initialImport
        [ImportEvent.dispatchBatch 1, ImportEvent.itemImported,
         ImportEvent.checkPending]).videosImported +
      (runEvents initialImport
        [ImportEvent.dispatchBatch 1, ImportEvent.itemImported,
         ImportEvent.checkPending]).videosSkipped ≤ 1 :=
  (C2_single_batch_counters_bounded
      [ImportEvent.dispatchBatch 1, ImportEvent.itemImported,
       ImportEvent.checkPending] (by decide) (by decide)).1 1 (by decide)

end Localtv
